import Mathlib

/-!
Verification development for the row-storage core of the VoltDB execution
engine, `src/ee/storage/table.cpp`.  The storage state of `voltdb::Table`
and the operations the specification describes — `initializeWithColumns`,
`nextFreeTuple`, `columnIndex`, `serializeColumnHeaderTo`, `serializeTo`,
`loadTuplesFromNoHeader`, `loadTuplesFrom` and `Table::equals` — are
embedded as executable Lean definitions, and the specification claims
about them are settled as theorems.

Collaborators declared outside `table.cpp` (the tuple schema, the
serialize buffers, the tuple payload codec, the table iterator, the block
allocator internals, the index hooks) are modelled from the
specification; each such definition carries a `Modelled from the spec:`
doc comment naming what is missing.  Machine integers are modelled as
`Nat` with explicit truncation modulo 2^32 or 2^16 where the source casts.
Byte streams are `List Nat` whose elements are byte values.
-/

namespace VoltTable

/-! ## Byte-stream primitives

Modelled from the spec, section 6: `SerializeOutput` / `SerializeInput`
write and read fixed-width integers in one fixed byte order (big-endian
here), consistent within one encoder/decoder pair, plus length-prefixed
byte strings.  Reading past the end of the stream is a reader failure.
-/

/-- Modelled from the spec: `SerializeOutput::writeInt` — the four
big-endian bytes of `n` truncated to 32 bits. -/
def writeInt32 (n : Nat) : List Nat :=
  [n / 16777216 % 256, n / 65536 % 256, n / 256 % 256, n % 256]

/-- Modelled from the spec: `SerializeOutput::writeShort` — the two
big-endian bytes of `n` truncated to 16 bits. -/
def writeInt16 (n : Nat) : List Nat :=
  [n / 256 % 256, n % 256]

/-- Modelled from the spec: `SerializeInput::readInt` — reads four bytes
big-endian, or fails on a truncated stream. -/
def readInt32 : List Nat → Option (Nat × List Nat)
  | a :: b :: c :: d :: rest => some (a * 16777216 + b * 65536 + c * 256 + d, rest)
  | _ => none

/-- Modelled from the spec: `SerializeInput::readShort`. -/
def readInt16 : List Nat → Option (Nat × List Nat)
  | a :: b :: rest => some (a * 256 + b, rest)
  | _ => none

/-- Modelled from the spec: `SerializeInput::readByte` (also
`readEnumInSingleByte`). -/
def readByte : List Nat → Option (Nat × List Nat)
  | a :: rest => some (a, rest)
  | _ => none

/-- Modelled from the spec: `SerializeInput::readTextString` — a 4-byte
length prefix followed by that many bytes.  A length that is negative as
an `int32` or that overruns the stream is a reader failure. -/
def readTextString (s : List Nat) : Option (List Nat × List Nat) :=
  match readInt32 s with
  | some (len, rest) =>
      if len < 2147483648 ∧ len ≤ rest.length then
        some (rest.take len, rest.drop len)
      else none
  | none => none

/-- Modelled from the spec: `SerializeOutput::writeIntAt` — backpatches
four bytes at position `pos` of an already-written buffer (the
reserve-then-patch contract of section 9). -/
def writeIntAt (pos : Nat) (v : Nat) (out : List Nat) : List Nat :=
  out.take pos ++ writeInt32 v ++ out.drop (pos + 4)

/-! ## Schema, values and the tuple payload codec

Modelled from the spec, section 6: a schema object exposes column count,
per-column type and per-tuple byte length; the tuple-payload codec
encodes/decodes one row against a schema.  The claims need one
fixed-length column type and one variable-length column type; the type
codes are the VoltDB `ValueType` codes (INTEGER = 5, VARCHAR = 9).
-/

/-- Modelled from the spec: the column types this development needs — a
fixed-length 4-byte integer column and a variable-length string column. -/
inductive ColType where
  | integer : ColType
  | varchar : ColType
deriving DecidableEq

/-- Modelled from the spec: the 1-byte `ValueType` code of a column type. -/
def typeCode : ColType → Nat
  | .integer => 5
  | .varchar => 9

/-- Modelled from the spec: `TupleSchema` — per-column types plus the
per-tuple payload byte length used for the stride computation. -/
structure TupleSchema where
  colTypes : List ColType
  tupleLength : Nat
deriving DecidableEq

/-- Number of columns of a schema (`TupleSchema::columnCount`). -/
def TupleSchema.columnCount (s : TupleSchema) : Nat :=
  s.colTypes.length

/-- Modelled from the spec: a column value — a 32-bit integer (stored as
its unsigned byte pattern) or a byte string. -/
inductive Value where
  | vint (n : Nat) : Value
  | vstr (bytes : List Nat) : Value
deriving DecidableEq

/-- Modelled from the spec: encode one value per its column type (the
tuple-payload codec write side).  A value that does not match its column
type is a caller-contract violation; it encodes to nothing. -/
def serializeValue : ColType → Value → List Nat
  | .integer, .vint n => writeInt32 n
  | .varchar, .vstr b => writeInt32 b.length ++ b
  | _, _ => []

/-- Modelled from the spec: decode one value per its column type (the
tuple-payload codec read side). -/
def deserializeValue (ty : ColType) (s : List Nat) : Option (Value × List Nat) :=
  match ty with
  | .integer =>
    match readInt32 s with
    | some (n, rest) => some (.vint n, rest)
    | none => none
  | .varchar =>
    match readTextString s with
    | some (b, rest) => some (.vstr b, rest)
    | none => none

/-- Modelled from the spec: `TableTuple::serializeTo` — the columns of one
row encoded in schema order. -/
def serializeTuple (schema : TupleSchema) (vals : List Value) : List Nat :=
  (List.zipWith serializeValue schema.colTypes vals).flatten

/-- Modelled from the spec: `TableTuple::deserializeFrom` — decode one row
column by column in schema order. -/
def deserializeTuple : List ColType → List Nat → Option (List Value × List Nat)
  | [], s => some ([], s)
  | ty :: tys, s =>
    match deserializeValue ty s with
    | some (v, s1) =>
      match deserializeTuple tys s1 with
      | some (vs, s2) => some (v :: vs, s2)
      | none => none
    | none => none

/-! ## The table state -/

/-- Modelled from the spec: one tuple slot — a header region holding the
deleted/dirty flags followed by the column payload. -/
structure Slot where
  deleted : Bool
  dirty : Bool
  values : List Value
deriving DecidableEq

/-- Modelled from the spec: a freshly carved slot is uninitialized memory;
its flags are not meaningful until a load or insert sets them.  The model
defaults the deleted flag to true so an uninitialized slot is inactive. -/
def Slot.uninit : Slot :=
  { deleted := true, dirty := false, values := [] }

/-- Modelled from the spec: `TUPLE_HEADER_SIZE` (declared in
`tabletuple.h`) — the slot header holds at minimum the deleted/dirty flag
byte. -/
def TUPLE_HEADER_SIZE : Nat := 1

/-- State of a `voltdb::Table`.  Fields mirror the `m_`-members of the
source.  `m_columnCount` is maintained equal to the length of
`m_columnNames` by `initializeWithColumns` and is modelled as the derived
length `Table.columnCount`.  Slot memory is modelled as a total map from
slot address to slot content, with `Table.dataPtrForTuple` mapping logical
index `i` to address `i`; `dataBlocks` is the length of the owned block
list `m_data`.  `m_columnHeaderSize` is `-1` exactly when
`m_columnHeaderData` is null, so only the optional cached byte buffer is
kept.  `tableType()` is a virtual per-subclass constant, modelled as a
field.  Indexes are opaque identifiers compared by equality (spec section
6: an index collection exposing per-index equality). -/
structure Table where
  schema : TupleSchema
  columnNames : List (List Nat)
  tupleCount : Nat
  usedTuples : Nat
  allocatedTuples : Nat
  tuplesPerBlock : Nat
  holeFreeTuples : List Nat
  dataBlocks : Nat
  slots : Nat → Slot
  columnHeaderData : Option (List Nat)
  tableAllocationTargetSize : Nat
  databaseId : Int
  name : List Nat
  tableType : List Nat
  indexes : List Nat

/-- Number of columns (`m_columnCount`, kept in sync with the column-name
array by `initializeWithColumns`). -/
def Table.columnCount (t : Table) : Nat :=
  t.columnNames.length

/-- The constructor `Table::Table(int tableAllocationTargetSize)`: all
counters zero, no blocks, no cache, empty free list; the null `m_schema`
is modelled as the empty placeholder schema.  Identity metadata
(database id, name, table type, indexes) is set by surrounding engine
code, so it is passed in here. -/
def Table.construct (targetSize : Nat) (dbId : Int)
    (nm ttype : List Nat) (idxs : List Nat) : Table :=
  { schema := { colTypes := [], tupleLength := 0 }
    columnNames := []
    tupleCount := 0
    usedTuples := 0
    allocatedTuples := 0
    tuplesPerBlock := 0
    holeFreeTuples := []
    dataBlocks := 0
    slots := fun _ => Slot.uninit
    columnHeaderData := none
    tableAllocationTargetSize := targetSize
    databaseId := dbId
    name := nm
    tableType := ttype
    indexes := idxs }

/-- `Table::initializeWithColumns` (production configuration, the
`#else` branch of the `MEMCHECK` conditional): installs the schema and
column names, derives tuples-per-block from the target block size and the
stride, resets `m_tupleCount`, `m_usedTuples` and the free list.  Per the
source comment, `m_data` and `m_allocatedTuples` are left alone; the
column header cache is not touched either. -/
def Table.initializeWithColumns (t : Table) (schema : TupleSchema)
    (names : List (List Nat)) : Table :=
  { t with
    schema := schema
    tuplesPerBlock :=
      t.tableAllocationTargetSize / (schema.tupleLength + TUPLE_HEADER_SIZE)
    columnNames := names
    tupleCount := 0
    usedTuples := 0
    holeFreeTuples := [] }

/-- Modelled from the spec, section 4.1: `allocateNextBlock` appends one
block to the owned block list and increases `m_allocatedTuples` by
`m_tuplesPerBlock`. -/
def Table.allocateNextBlock (t : Table) : Table :=
  { t with
    dataBlocks := t.dataBlocks + 1
    allocatedTuples := t.allocatedTuples + t.tuplesPerBlock }

/-- Modelled from the spec, section 4.1: `dataPtrForTuple` maps a 0-based
logical slot index (ordered by allocation) to its address,
deterministically; addresses are modelled as the logical indices
themselves. -/
def Table.dataPtrForTuple (_t : Table) (index : Nat) : Nat :=
  index

/-- `Table::nextFreeTuple` (production configuration, free list present):
pop the back of `m_holeFreeTuples` when non-empty (the head of the model
list is the vector back, i.e. the most recently pushed address);
otherwise allocate a block when `m_usedTuples >= m_allocatedTuples`, then
hand out the slot at logical index `m_usedTuples` and increment it.  The
source asserts `m_usedTuples < m_allocatedTuples` before handing out the
slot; assertion failure is modelled as `none`. -/
def Table.nextFreeTuple (t : Table) : Option (Table × Nat) :=
  match t.holeFreeTuples with
  | ret :: rest => some ({ t with holeFreeTuples := rest }, ret)
  | [] =>
    let t1 := if t.usedTuples ≥ t.allocatedTuples then t.allocateNextBlock else t
    if t1.usedTuples < t1.allocatedTuples then
      some ({ t1 with usedTuples := t1.usedTuples + 1 }, t1.dataPtrForTuple t1.usedTuples)
    else none

/-- Modelled from the spec, section 4.2 (the freeing path lives in the
table subclasses): mark the slot deleted, push its address onto the free
list (vector `push_back`, i.e. the model list head), decrement
`m_tupleCount`; `m_usedTuples` is not decremented. -/
def Table.deleteTupleStorage (t : Table) (addr : Nat) : Table :=
  { t with
    slots := fun j => if j = addr then { t.slots j with deleted := true } else t.slots j
    holeFreeTuples := addr :: t.holeFreeTuples
    tupleCount := t.tupleCount - 1 }

/-- Helper loop of `Table::columnIndex`: linear scan with a running
counter, returning the counter at the first match. -/
def columnIndexLoop : List (List Nat) → List Nat → Nat → Int
  | [], _, _ => -1
  | c :: rest, nm, ctr =>
    if c = nm then Int.ofNat ctr else columnIndexLoop rest nm (ctr + 1)

/-- `Table::columnIndex(name)`: scan `m_columnNames[0 .. m_columnCount)`
in order, return the first index whose name compares equal, else `-1`.
The method is `const`: it takes the table by value and returns only the
index. -/
def Table.columnIndex (t : Table) (nm : List Nat) : Int :=
  columnIndexLoop t.columnNames nm 0

/-! ## Column header and table serialization -/

/-- The body of the serialized column header, after its 4-byte size
field: the fixed status byte `-128` (byte value 128), the 2-byte column
count, one type-code byte per schema column, then each column name as a
4-byte length prefix plus its bytes. -/
def Table.columnHeaderBody (t : Table) : List Nat :=
  128 :: writeInt16 t.columnCount
    ++ t.schema.colTypes.map typeCode
    ++ (t.columnNames.map (fun nm => writeInt32 nm.length ++ nm)).flatten

/-- The full serialized column header: the non-inclusive size (the body
length) followed by the body.  This is what the non-cached path of
`serializeColumnHeaderTo` produces. -/
def Table.computedColumnHeader (t : Table) : List Nat :=
  writeInt32 (t.columnHeaderBody).length ++ t.columnHeaderBody

/-- `Table::serializeColumnHeaderTo`: when `m_columnHeaderData` is
non-null, write the cached bytes verbatim; otherwise write a placeholder
4-byte size, the status byte `-128`, the column count as a short, the
per-column type bytes (the source loop runs over `m_columnCount`, which
equals the schema column count in every initialized table), the
length-prefixed column names, then backpatch the placeholder with the
non-inclusive byte count and copy the written range into the cache. -/
def Table.serializeColumnHeaderTo (t : Table) (out : List Nat) : Table × List Nat :=
  match t.columnHeaderData with
  | some cached => (t, out ++ cached)
  | none =>
    let start := out.length
    let out1 := out ++ writeInt32 4294967295
      ++ 128 :: writeInt16 t.columnCount
      ++ t.schema.colTypes.map typeCode
      ++ (t.columnNames.map (fun nm => writeInt32 nm.length ++ nm)).flatten
    let headerSize := out1.length - start
    let out2 := writeIntAt start (headerSize - 4) out1
    ({ t with columnHeaderData := some (out2.drop start) }, out2)

/-- Modelled from the spec, section 6: the table iterator visits, in
allocation order, every slot that has been handed out (logical indices
below `m_usedTuples`) and reports the active ones — those whose deleted
flag is clear.  `activeTuples` is the list of their payloads in that
order. -/
def Table.activeTuples (t : Table) : List (List Value) :=
  (((List.range t.usedTuples).map t.slots).filter (fun sl => !sl.deleted)).map Slot.values

/-- `Table::serializeTo`: a placeholder 4-byte total size, the column
header via `serializeColumnHeaderTo`, the active row count
`m_tupleCount` as a 4-byte int, each active tuple in iteration order via
the tuple codec, then the placeholder backpatched with the non-inclusive
byte count.  The source asserts the written count equals `m_tupleCount`;
the assert condition is settled by `serializeTo_wire_layout`. -/
def Table.serializeTo (t : Table) (out : List Nat) : Table × List Nat :=
  let pos := out.length
  let hd := t.serializeColumnHeaderTo (out ++ writeInt32 4294967295)
  let out3 := hd.2 ++ writeInt32 hd.1.tupleCount
    ++ (hd.1.activeTuples.map (serializeTuple hd.1.schema)).flatten
  let sz := out3.length - pos - 4
  (hd.1, writeIntAt pos sz out3)

/-! ## The equality comparator -/

/-- The tuple-pair loop of `Table::equals`: while the first iterator has
a next active tuple, the second must also have one and the pair must
compare equal; the loop returns true when the first iterator is
exhausted. -/
def tupleLoopEq : List (List Value) → List (List Value) → Bool
  | [], _ => true
  | _ :: _, [] => false
  | x :: xs, y :: ys => (x == y) && tupleLoopEq xs ys

/-- `Table::equals`: column count, index count, active-tuple count,
database id, name, table type, pairwise index equality (the source's
`indexes.size() == indexes.size()` self-comparison is vacuous and the
pairwise loop runs over the first table's index list), schema equality,
then the pairwise active-tuple loop. -/
def Table.equals (t other : Table) : Bool :=
  (t.columnCount == other.columnCount) &&
  (t.indexes.length == other.indexes.length) &&
  (t.tupleCount == other.tupleCount) &&
  (t.databaseId == other.databaseId) &&
  (t.name == other.name) &&
  (t.tableType == other.tableType) &&
  (t.indexes.zip other.indexes).all (fun p => p.1 == p.2) &&
  (t.schema == other.schema) &&
  tupleLoopEq t.activeTuples other.activeTuples

/-! ## The bulk loader -/

/-- Failure modes of the load path: a truncated stream (reader failure),
a failed source assertion, an explicit marker for a source loop that
never terminates, and the structured schema-mismatch error of
`loadTuplesFrom`, which carries the expected column count, the given
column count, and both sides' column types and names (the source message
enumerates exactly these via `debug()` and the saved `types`/`names`
arrays). -/
inductive EEException where
  | truncated : EEException
  | assertionFailure : EEException
  | nontermination : EEException
  | schemaMismatch (expectedCount gotCount : Nat)
      (expectedTypes : List Nat) (expectedNames : List (List Nat))
      (givenTypes : List Nat) (givenNames : List (List Nat)) : EEException
deriving DecidableEq

/-- Pointwise slot-memory update (a write through the scratch tuple view
positioned at one slot address). -/
def updateSlot (slots : Nat → Slot) (idx : Nat) (sl : Slot) : Nat → Slot :=
  fun j => if j = idx then sl else slots j

/-- The row loop of `Table::loadTuplesFromNoHeader`: for each of `n`
rows, position the scratch view at the next physical slot, clear the
deleted/dirty flags, decode the payload, advance.  On a decode failure
the slots written so far stay written and the loop reports failure. -/
def loadRows (schema : TupleSchema) :
    (Nat → Slot) → Nat → Nat → List Nat → ((Nat → Slot) × Option (List Nat))
  | slots, _, 0, s => (slots, some s)
  | slots, idx, n + 1, s =>
    match deserializeTuple schema.colTypes s with
    | some (vals, s1) =>
      loadRows schema (updateSlot slots idx { deleted := false, dirty := false, values := vals })
        (idx + 1) n s1
    | none => (slots, none)

/-- Fuel-indexed form of the pre-allocation loop of
`loadTuplesFromNoHeader`.  Each iteration that runs has
`allocatedTuples < needed` and adds `tuplesPerBlock ≥ 1` capacity, so
`needed - allocatedTuples` bounds the number of iterations; the fuel is
exhausted only when the loop guard is already false. -/
def growBlocksAux : Nat → Table → Nat → Table
  | 0, t, _ => t
  | fuel + 1, t, needed =>
    if t.allocatedTuples < needed ∧ 0 < t.tuplesPerBlock then
      growBlocksAux fuel t.allocateNextBlock needed
    else t

/-- The pre-allocation loop of `loadTuplesFromNoHeader`:
`while (tupleCount + m_usedTuples > m_allocatedTuples) allocateNextBlock()`.
When `m_tuplesPerBlock` is zero the source loop never terminates (each
iteration adds zero capacity), so the loop body carries the guard
`0 < tuplesPerBlock` and `loadTuplesFromNoHeader` reports that divergence
explicitly before entering the loop. -/
def Table.growBlocks (t : Table) (needed : Nat) : Table :=
  growBlocksAux (needed - t.allocatedTuples) t needed

/-- `Table::loadTuplesFromNoHeader`: read the 4-byte row count (asserted
non-negative as an `int32`), pre-grow capacity to cover
`rowCount + m_usedTuples`, run the row loop writing rows at logical
indices `m_usedTuples + i`, then increment `m_tupleCount` and
`m_usedTuples` by the row count.  `processLoadedTuple` and
`populateIndexes` are hooks on the opaque index model and do not change
the embedded state. -/
def Table.loadTuplesFromNoHeader (t : Table) (s : List Nat) :
    Table × Except EEException Unit :=
  match readInt32 s with
  | none => (t, .error .truncated)
  | some (n, s1) =>
    if 2147483648 ≤ n then (t, .error .assertionFailure)
    else if t.tuplesPerBlock = 0 ∧ t.allocatedTuples < n + t.usedTuples then
      (t, .error .nontermination)
    else
      let t1 := t.growBlocks (n + t.usedTuples)
      match loadRows t1.schema t1.slots t1.usedTuples n s1 with
      | (slots1, some _) =>
        ({ t1 with
            slots := slots1
            tupleCount := t1.tupleCount + n
            usedTuples := t1.usedTuples + n }, .ok ())
      | (slots1, none) => ({ t1 with slots := slots1 }, .error .truncated)

/-- The type-byte loop of `loadTuplesFrom`: `colcount` reads of one
enum byte each. -/
def readTypeArray : Nat → List Nat → Option (List Nat × List Nat)
  | 0, s => some ([], s)
  | n + 1, s =>
    match readByte s with
    | some (b, s1) =>
      match readTypeArray n s1 with
      | some (bs, s2) => some (b :: bs, s2)
      | none => none
    | none => none

/-- The name loop of `loadTuplesFrom`: `colcount` reads of one text
string each. -/
def readNameArray : Nat → List Nat → Option (List (List Nat) × List Nat)
  | 0, s => some ([], s)
  | n + 1, s =>
    match readTextString s with
    | some (nm, s1) =>
      match readNameArray n s1 with
      | some (nms, s2) => some (nm :: nms, s2)
      | none => none
    | none => none

/-- The header-consuming prefix of `Table::loadTuplesFrom`: read and
discard the 4-byte row-start offset and the status byte, read the 2-byte
column count (asserted non-negative as an `int16`), then the declared
type byte of every column and the declared name of every column.
Returns the declared count, types, names and the remaining stream. -/
def parseLoadHeader (s : List Nat) :
    Except EEException (Nat × List Nat × List (List Nat) × List Nat) :=
  match readInt32 s with
  | none => .error .truncated
  | some (_, s1) =>
    match readByte s1 with
    | none => .error .truncated
    | some (_, s2) =>
      match readInt16 s2 with
      | none => .error .truncated
      | some (colcount, s3) =>
        if 32768 ≤ colcount then .error .assertionFailure
        else
          match readTypeArray colcount s3 with
          | none => .error .truncated
          | some (gtypes, s4) =>
            match readNameArray colcount s4 with
            | none => .error .truncated
            | some (gnames, s5) => .ok (colcount, gtypes, gnames, s5)

/-- `Table::loadTuplesFrom`: consume the self-describing header, compare
the declared column count with `m_schema->columnCount()`; on mismatch
throw the structured schema-mismatch error (enumerating expected and
given columns and types) leaving the table untouched; on match delegate
the remaining stream to `loadTuplesFromNoHeader`. -/
def Table.loadTuplesFrom (t : Table) (s : List Nat) :
    Table × Except EEException Unit :=
  match parseLoadHeader s with
  | .error e => (t, .error e)
  | .ok (colcount, gtypes, gnames, rest) =>
    if colcount ≠ t.schema.columnCount then
      (t, .error (.schemaMismatch t.schema.columnCount colcount
        (t.schema.colTypes.map typeCode) t.columnNames gtypes gnames))
    else
      t.loadTuplesFromNoHeader rest

/-! ## Operation sequences (for the counter invariant) -/

/-- One operation of the sequences quantified over by the counter
invariant: a slot allocation (`nextFreeTuple`), a bulk load
(`loadTuplesFromNoHeader` on an arbitrary stream), or a
re-initialization (`initializeWithColumns`). -/
inductive TableOp where
  | allocOp : TableOp
  | loadOp (s : List Nat) : TableOp
  | initOp (schema : TupleSchema) (names : List (List Nat)) : TableOp

/-- The state after one operation.  An aborted `nextFreeTuple` (failed
assertion) leaves the state as it was. -/
def Table.stepOp (t : Table) : TableOp → Table
  | .allocOp =>
    match t.nextFreeTuple with
    | some (t1, _) => t1
    | none => t
  | .loadOp s => (t.loadTuplesFromNoHeader s).1
  | .initOp schema names => t.initializeWithColumns schema names

/-- The state after a sequence of operations. -/
def Table.runOps (t : Table) : List TableOp → Table
  | [] => t
  | op :: ops => (t.stepOp op).runOps ops

/-! ## Well-formedness and statement predicates -/

/-- A stored value matches its column type and fits the wire encoding: a
32-bit integer pattern, or a string whose length is non-negative as an
`int32`. -/
def valueOk : ColType → Value → Prop
  | .integer, .vint n => n < 4294967296
  | .varchar, .vstr b => b.length < 2147483648
  | .integer, .vstr _ => False
  | .varchar, .vint _ => False

instance instDecidableValueOk (ty : ColType) (v : Value) : Decidable (valueOk ty v) :=
  match ty, v with
  | .integer, .vint n => inferInstanceAs (Decidable (n < 4294967296))
  | .varchar, .vstr b => inferInstanceAs (Decidable (b.length < 2147483648))
  | .integer, .vstr _ => inferInstanceAs (Decidable False)
  | .varchar, .vint _ => inferInstanceAs (Decidable False)

/-- A row payload matches the schema: one value per column, each matching
its column type. -/
def rowOk (schema : TupleSchema) (vals : List Value) : Prop :=
  vals.length = schema.colTypes.length ∧
  ∀ p ∈ List.zip schema.colTypes vals, valueOk p.1 p.2

instance instDecidableRowOk (schema : TupleSchema) (vals : List Value) :
    Decidable (rowOk schema vals) :=
  inferInstanceAs (Decidable (_ ∧ _))

/-- Well-formedness of a reachable, initialized table state:
`m_tupleCount` counts exactly the active tuples and is non-negative as an
`int32`; the column-name array has one entry per schema column (the
`initializeWithColumns` caller contract) and the count fits an `int16`;
column names have `int32`-sized lengths; every active row payload matches
the schema; and the column-header cache, when present, holds exactly the
bytes the non-cached path computes. -/
def Table.wf (t : Table) : Prop :=
  t.tupleCount = t.activeTuples.length ∧
  t.tupleCount < 2147483648 ∧
  t.columnNames.length = t.schema.colTypes.length ∧
  t.columnCount < 32768 ∧
  (∀ nm ∈ t.columnNames, nm.length < 2147483648) ∧
  (∀ vals ∈ t.activeTuples, rowOk t.schema vals) ∧
  (t.columnHeaderData = none ∨ t.columnHeaderData = some t.computedColumnHeader)

/-- The freshly initialized load target of the round-trip law: a table
constructed with the given allocation target size, carrying the same
identity metadata (database id, name, table type, indexes) as `t`, then
initialized with `t`'s schema and column names. -/
def Table.freshTarget (t : Table) (targetSize : Nat) : Table :=
  (Table.construct targetSize t.databaseId t.name t.tableType
    t.indexes).initializeWithColumns t.schema t.columnNames

/-- The behaviour `nextFreeTuple` is claimed to have (claim C3): a
non-empty free list is popped LIFO — the most recently freed address
comes back first — with no block allocation and no change to any other
field; an empty free list hands out the slot at logical index
`usedTuples`, incrementing it, and allocates a block exactly when
`usedTuples = allocatedTuples`. -/
def NextFreeTupleSpec (t : Table) : Prop :=
  (∀ addr rest, t.holeFreeTuples = addr :: rest →
    t.nextFreeTuple = some ({ t with holeFreeTuples := rest }, addr)) ∧
  (∀ addr, (t.deleteTupleStorage addr).nextFreeTuple =
    some ({ t.deleteTupleStorage addr with holeFreeTuples := t.holeFreeTuples }, addr)) ∧
  (t.holeFreeTuples = [] →
    (t.usedTuples = t.allocatedTuples →
      t.nextFreeTuple = some ({ t.allocateNextBlock with usedTuples := t.usedTuples + 1 },
        t.dataPtrForTuple t.usedTuples)) ∧
    (t.usedTuples < t.allocatedTuples →
      t.nextFreeTuple = some ({ t with usedTuples := t.usedTuples + 1 },
        t.dataPtrForTuple t.usedTuples)))

/-- The counter invariant of claim C2. -/
def counterInv (t : Table) : Prop :=
  0 ≤ t.tupleCount ∧ t.tupleCount ≤ t.usedTuples ∧ t.usedTuples ≤ t.allocatedTuples

/-! ## Concrete instances for counterexamples and witnesses -/

/-- Schema with a single 4-byte integer column. -/
def intSchema : TupleSchema :=
  { colTypes := [.integer], tupleLength := 4 }

/-- Schema with two integer columns. -/
def intSchema2 : TupleSchema :=
  { colTypes := [.integer, .integer], tupleLength := 8 }

/-- Schema with one integer and one variable-length column. -/
def mixedSchema : TupleSchema :=
  { colTypes := [.integer, .varchar], tupleLength := 12 }

/-- Schema whose tuple stride (31 + 1 header byte = 32) exceeds a small
allocation target. -/
def bigSchema : TupleSchema :=
  { colTypes := [.varchar], tupleLength := 31 }

/-- A table freshly constructed with a 1024-byte allocation target and
initialized with the single-integer-column schema, column name `"a"`. -/
def tableA : Table :=
  (Table.construct 1024 0 [116] [112] []).initializeWithColumns intSchema [[97]]

/-- `tableA` holding one active row `(7)` in slot 0: the state after one
allocated slot has been written and counted. -/
def tableB : Table :=
  { tableA with
    tupleCount := 1
    usedTuples := 1
    allocatedTuples := 204
    dataBlocks := 1
    slots := fun j =>
      if j = 0 then { deleted := false, dirty := false, values := [.vint 7] }
      else Slot.uninit }

/-- `tableA` holding two active rows and one deleted row: slots 0 and 2
are active, slot 1 is deleted. -/
def tableC : Table :=
  { tableA with
    tupleCount := 2
    usedTuples := 3
    allocatedTuples := 204
    dataBlocks := 1
    holeFreeTuples := [1]
    slots := fun j =>
      if j = 0 then { deleted := false, dirty := false, values := [.vint 7] }
      else if j = 1 then { deleted := true, dirty := false, values := [.vint 8] }
      else if j = 2 then { deleted := false, dirty := false, values := [.vint 9] }
      else Slot.uninit }

/-- A table over `mixedSchema` with two active rows, exercising a schema
with a variable-length column. -/
def tableM : Table :=
  { tableA with
    schema := mixedSchema
    columnNames := [[105, 100], [110, 109]]
    tuplesPerBlock := 78
    tupleCount := 2
    usedTuples := 2
    allocatedTuples := 78
    dataBlocks := 1
    slots := fun j =>
      if j = 0 then { deleted := false, dirty := false, values := [.vint 1, .vstr [97]] }
      else if j = 1 then { deleted := false, dirty := false, values := [.vint 2, .vstr [98, 98]] }
      else Slot.uninit }

/-- An inbound stream declaring two integer columns `"a"`, `"b"` and zero
rows — a column-count mismatch for the one-column `tableA`. -/
def mismatchStream : List Nat :=
  writeInt32 0 ++ [128] ++ writeInt16 2 ++ [5, 5]
    ++ (writeInt32 1 ++ [97]) ++ (writeInt32 1 ++ [98]) ++ writeInt32 0

/-- An inbound stream declaring one column named `"a"` whose declared
type byte is 9 (VARCHAR) although `tableA`'s schema column is INTEGER
(type code 5), followed by one integer row `(42)`. -/
def wrongTypeStream : List Nat :=
  writeInt32 13 ++ [128] ++ writeInt16 1 ++ [9]
    ++ (writeInt32 1 ++ [97]) ++ writeInt32 1 ++ writeInt32 42

instance instDecidableWf (t : Table) : Decidable t.wf :=
  inferInstanceAs (Decidable (_ ∧ _))

/-- The slot memory produced by the row loop of a bulk load: `rows`
written one after another starting at slot index `idx`, each with
cleared deleted/dirty flags. -/
def writeRows (slots : Nat → Slot) (idx : Nat) : List (List Value) → (Nat → Slot)
  | [] => slots
  | r :: rs =>
    writeRows (updateSlot slots idx { deleted := false, dirty := false, values := r })
      (idx + 1) rs

/-- A table whose tuple stride (32 bytes) exceeds its 16-byte allocation
target — the failing input of the tuples-per-block claim. -/
def misconfiguredTable : Table :=
  (Table.construct 16 0 [116] [112] []).initializeWithColumns bigSchema [[97]]

/-- `tableA` after one `serializeColumnHeaderTo` call has populated the
column-header cache. -/
def tableAfterHeaderCached : Table :=
  (tableA.serializeColumnHeaderTo []).1

/-- `tableAfterHeaderCached` re-initialized with a different column set
(two integer columns `"a"`, `"b"`). -/
def tableReinitB : Table :=
  tableAfterHeaderCached.initializeWithColumns intSchema2 [[97], [98]]

/-! ## Byte-stream lemmas -/

theorem readInt32_writeInt32 (n : Nat) (rest : List Nat) :
    readInt32 (writeInt32 n ++ rest) = some (n % 4294967296, rest) := by
  simp only [writeInt32, List.cons_append, List.nil_append, readInt32]
  congr 2
  omega

theorem readInt32_writeInt32_of_lt (n : Nat) (rest : List Nat) (h : n < 4294967296) :
    readInt32 (writeInt32 n ++ rest) = some (n, rest) := by
  rw [readInt32_writeInt32, Nat.mod_eq_of_lt h]

theorem readInt16_writeInt16_of_lt (n : Nat) (rest : List Nat) (h : n < 65536) :
    readInt16 (writeInt16 n ++ rest) = some (n, rest) := by
  simp only [writeInt16, List.cons_append, List.nil_append, readInt16]
  congr 2
  omega

theorem length_writeInt32 (n : Nat) : (writeInt32 n).length = 4 := rfl

theorem readTextString_round (b rest : List Nat) (h : b.length < 2147483648) :
    readTextString (writeInt32 b.length ++ (b ++ rest)) = some (b, rest) := by
  simp only [readTextString, readInt32_writeInt32_of_lt b.length _ (by omega)]
  rw [if_pos ⟨h, by simp⟩]
  simp

/-! ## Tuple codec round trip -/

theorem deserializeValue_round (ty : ColType) (v : Value) (rest : List Nat)
    (h : valueOk ty v) :
    deserializeValue ty (serializeValue ty v ++ rest) = some (v, rest) := by
  cases ty <;> cases v <;> simp only [valueOk] at h
  · simp only [serializeValue, deserializeValue,
      readInt32_writeInt32_of_lt _ _ h]
  · simp only [serializeValue, deserializeValue, List.append_assoc,
      readTextString_round _ _ h]

theorem deserializeTuple_round :
    ∀ (tys : List ColType) (vals : List Value) (rest : List Nat),
      vals.length = tys.length →
      (∀ p ∈ List.zip tys vals, valueOk p.1 p.2) →
      deserializeTuple tys ((List.zipWith serializeValue tys vals).flatten ++ rest) =
        some (vals, rest)
  | [], [], rest, _, _ => by simp [deserializeTuple]
  | ty :: tys, v :: vs, rest, hlen, hok => by
      have hv : valueOk ty v := hok (ty, v) (by simp)
      have hrec := deserializeTuple_round tys vs rest (by simpa using hlen)
        (fun p hp => hok p (by simp [hp]))
      simp only [List.zipWith_cons_cons, List.flatten_cons, List.append_assoc,
        deserializeTuple, deserializeValue_round ty v _ hv, hrec]

theorem deserializeTuple_serializeTuple (schema : TupleSchema) (vals : List Value)
    (rest : List Nat) (h : rowOk schema vals) :
    deserializeTuple schema.colTypes (serializeTuple schema vals ++ rest) =
      some (vals, rest) :=
  deserializeTuple_round schema.colTypes vals rest h.1 h.2

/-! ## Column lookup (claim C10) -/

theorem columnIndexLoop_spec (nm : List Nat) :
    ∀ (names : List (List Nat)) (k : Nat),
      (∃ i, i < names.length ∧ names.getD i [] = nm ∧
        (∀ j, j < i → names.getD j [] ≠ nm) ∧
        columnIndexLoop names nm k = Int.ofNat (k + i)) ∨
      ((∀ i, i < names.length → names.getD i [] ≠ nm) ∧
        columnIndexLoop names nm k = -1)
  | [], _ => Or.inr ⟨fun i hi => absurd hi (by simp), rfl⟩
  | c :: rest, k => by
      by_cases hc : c = nm
      · exact Or.inl ⟨0, by simp, by simpa using hc, fun j hj => absurd hj (by omega),
          by simp [columnIndexLoop, hc]⟩
      · rcases columnIndexLoop_spec nm rest (k + 1) with
          ⟨i, hi, heq, hmin, hval⟩ | ⟨hall, hval⟩
        · refine Or.inl ⟨i + 1, by simpa using hi, by simpa using heq, ?_, ?_⟩
          · intro j hj
            cases j with
            | zero => simpa using hc
            | succ j => simpa using hmin j (by omega)
          · rw [columnIndexLoop, if_neg hc, hval]
            congr 1
            omega
        · refine Or.inr ⟨?_, by rw [columnIndexLoop, if_neg hc, hval]⟩
          intro i hi
          cases i with
          | zero => simpa using hc
          | succ i => simpa using hall i (by simpa using hi)

/-- Claim C10 (confirmed): `columnIndex(name)` returns the smallest index
`i < columnCount` whose column name equals `name`, and `-1` when no
column has that name.  The embedded `columnIndex` is a pure function of
the table, so the call changes no table state. -/
theorem columnIndex_spec (t : Table) (nm : List Nat) :
    (∃ i, i < t.columnCount ∧ t.columnNames.getD i [] = nm ∧
      (∀ j, j < i → t.columnNames.getD j [] ≠ nm) ∧
      t.columnIndex nm = Int.ofNat i) ∨
    ((∀ i, i < t.columnCount → t.columnNames.getD i [] ≠ nm) ∧
      t.columnIndex nm = -1) := by
  have h := columnIndexLoop_spec nm t.columnNames 0
  rcases h with ⟨i, hi, heq, hmin, hval⟩ | ⟨hall, hval⟩
  · exact Or.inl ⟨i, hi, heq, hmin, by simpa using hval⟩
  · exact Or.inr ⟨hall, hval⟩

/-! ## Re-initialization (claim C8) -/

/-- Counterexample to claim C8 as stated: after a slot allocation has
allocated one block (204 slots), re-initializing `tableA` with the same
schema leaves `m_allocatedTuples` at 204, not 0 — the source explicitly
leaves `m_data` and `m_allocatedTuples` alone. -/
theorem initializeWithColumns_allocatedTuples_counterexample :
    ((tableA.stepOp .allocOp).initializeWithColumns intSchema [[97]]).allocatedTuples = 204 ∧
    ¬ ((tableA.stepOp .allocOp).initializeWithColumns intSchema [[97]]).allocatedTuples = 0 := by
  exact ⟨rfl, by decide⟩

/-- Claim C8 (corrected): every call to `initializeWithColumns` resets
`m_tupleCount` and `m_usedTuples` to zero and clears the free list, but
`m_allocatedTuples` (and the owned block list) is left unchanged, not
reset to zero. -/
theorem initializeWithColumns_reset (t : Table) (schema : TupleSchema)
    (names : List (List Nat)) :
    (t.initializeWithColumns schema names).tupleCount = 0 ∧
    (t.initializeWithColumns schema names).usedTuples = 0 ∧
    (t.initializeWithColumns schema names).holeFreeTuples = [] ∧
    (t.initializeWithColumns schema names).allocatedTuples = t.allocatedTuples ∧
    (t.initializeWithColumns schema names).dataBlocks = t.dataBlocks :=
  ⟨rfl, rfl, rfl, rfl, rfl⟩

/-! ## Tuples-per-block (claim C9) -/

/-- Claim C9 (code bug): the source computes
`m_tuplesPerBlock = m_tableAllocationTargetSize / (tupleLength + TUPLE_HEADER_SIZE)`
with no minimum.  For a 16-byte target and a 32-byte stride the quotient
is 0, contradicting the claimed minimum of 1; a subsequent
`nextFreeTuple` then allocates a zero-capacity block and its own
`m_usedTuples < m_allocatedTuples` assertion fails (modelled as `none`). -/
theorem tuplesPerBlock_zero_when_stride_exceeds_target :
    misconfiguredTable.tuplesPerBlock = 0 ∧
    misconfiguredTable.nextFreeTuple = none :=
  ⟨rfl, rfl⟩

/-! ## Column-header cache staleness (claim C5) -/

/-- Claim C5 (code bug): `initializeWithColumns` does not invalidate
`m_columnHeaderData`.  After the one-column header of `tableA` has been
cached and the table is re-initialized with a two-column schema, the next
`serializeColumnHeaderTo` emits the stale cached one-column header
byte-for-byte, which differs from the header the two-column table would
compute with an empty cache. -/
theorem columnHeaderCache_stale_after_reinit :
    (tableReinitB.serializeColumnHeaderTo []).2 = (tableA.serializeColumnHeaderTo []).2 ∧
    (tableReinitB.serializeColumnHeaderTo []).2 ≠
      (({ tableReinitB with columnHeaderData := none }).serializeColumnHeaderTo []).2 := by
  exact ⟨rfl, by decide⟩

/-! ## nextFreeTuple (claim C3) -/

/-- Claim C3 (confirmed): with a non-empty free list, `nextFreeTuple`
pops the most-recently-freed address (LIFO — the address pushed by the
latest `deleteTupleStorage`) changing nothing but the free list — no
block allocation, no change to `m_usedTuples`; with an empty free list it
allocates a new block exactly when `m_usedTuples = m_allocatedTuples`,
hands out the slot at logical index `m_usedTuples`, and increments
`m_usedTuples` by one.  Hypotheses: the counter invariant
`usedTuples ≤ allocatedTuples` and a positive tuples-per-block (so the
source's own assertion holds). -/
theorem nextFreeTuple_spec (t : Table)
    (_hused : t.usedTuples ≤ t.allocatedTuples)
    (htpb : 1 ≤ t.tuplesPerBlock) :
    NextFreeTupleSpec t := by
  refine ⟨?_, ?_, ?_⟩
  · intro addr rest h
    simp [Table.nextFreeTuple, h]
  · intro addr
    simp [Table.nextFreeTuple, Table.deleteTupleStorage]
  · intro hnil
    constructor
    · intro heq
      have hge : t.usedTuples ≥ t.allocatedTuples := Nat.le_of_eq heq.symm
      have hlt : t.allocateNextBlock.usedTuples < t.allocateNextBlock.allocatedTuples := by
        simp only [Table.allocateNextBlock]
        omega
      simp only [Table.nextFreeTuple, hnil, if_pos hge, if_pos hlt,
        Table.allocateNextBlock, Table.dataPtrForTuple]
      rw [if_pos (by omega)]
    · intro hlt
      have hnge : ¬ t.usedTuples ≥ t.allocatedTuples := Nat.not_le.mpr hlt
      simp only [Table.nextFreeTuple, hnil, if_neg hnge, if_pos hlt]

/-- Witness for C3 at the concrete table `tableC`, whose free list holds
the address of its one deleted slot. -/
theorem nextFreeTuple_spec_witness :
    tableC.usedTuples ≤ tableC.allocatedTuples ∧
    1 ≤ tableC.tuplesPerBlock ∧
    NextFreeTupleSpec tableC :=
  ⟨by decide, by decide, nextFreeTuple_spec tableC (by decide) (by decide)⟩

/-! ## Counter invariant (claim C2) -/

theorem growBlocksAux_char :
    ∀ (fuel : Nat) (t : Table) (needed : Nat),
      ∃ k : Nat, growBlocksAux fuel t needed =
        { t with dataBlocks := t.dataBlocks + k,
                 allocatedTuples := t.allocatedTuples + k * t.tuplesPerBlock }
  | 0, t, _ => ⟨0, by cases t; simp [growBlocksAux]⟩
  | fuel + 1, t, needed => by
      by_cases h : t.allocatedTuples < needed ∧ 0 < t.tuplesPerBlock
      · obtain ⟨k, hk⟩ := growBlocksAux_char fuel t.allocateNextBlock needed
        refine ⟨k + 1, ?_⟩
        rw [growBlocksAux, if_pos h, hk]
        cases t
        simp only [Table.allocateNextBlock]
        congr 1 <;> ring
      · exact ⟨0, by rw [growBlocksAux, if_neg h]; cases t; simp⟩

theorem growBlocks_char (t : Table) (needed : Nat) :
    ∃ k : Nat, t.growBlocks needed =
      { t with dataBlocks := t.dataBlocks + k,
               allocatedTuples := t.allocatedTuples + k * t.tuplesPerBlock } :=
  growBlocksAux_char _ t needed

theorem growBlocksAux_ge :
    ∀ (fuel : Nat) (t : Table) (needed : Nat),
      needed - t.allocatedTuples ≤ fuel → 0 < t.tuplesPerBlock →
      needed ≤ (growBlocksAux fuel t needed).allocatedTuples
  | 0, t, needed, hf, _ => by rw [growBlocksAux]; omega
  | fuel + 1, t, needed, hf, htpb => by
      by_cases h : t.allocatedTuples < needed ∧ 0 < t.tuplesPerBlock
      · rw [growBlocksAux, if_pos h]
        exact growBlocksAux_ge fuel t.allocateNextBlock needed
          (by simp only [Table.allocateNextBlock]; omega)
          (by simpa only [Table.allocateNextBlock] using htpb)
      · rw [growBlocksAux, if_neg h]
        by_cases h2 : t.allocatedTuples < needed
        · exact absurd ⟨h2, htpb⟩ h
        · omega

theorem growBlocks_ge (t : Table) (needed : Nat)
    (h : 0 < t.tuplesPerBlock ∨ needed ≤ t.allocatedTuples) :
    needed ≤ (t.growBlocks needed).allocatedTuples := by
  rcases h with htpb | hle
  · exact growBlocksAux_ge _ t needed (Nat.le_refl _) htpb
  · obtain ⟨k, hk⟩ := growBlocks_char t needed
    rw [hk]
    simp only
    omega

theorem stepOp_preserves_counterInv (t : Table) (op : TableOp)
    (h : counterInv t) : counterInv (t.stepOp op) := by
  obtain ⟨-, h1, h2⟩ := h
  cases op with
  | initOp schema names =>
    exact ⟨Nat.zero_le _, Nat.zero_le _, Nat.zero_le _⟩
  | allocOp =>
    cases hh : t.holeFreeTuples with
    | cons a rest =>
      simp only [Table.stepOp, Table.nextFreeTuple, hh]
      exact ⟨Nat.zero_le _, h1, h2⟩
    | nil =>
      by_cases hge : t.usedTuples ≥ t.allocatedTuples
      · by_cases hlt : t.allocateNextBlock.usedTuples < t.allocateNextBlock.allocatedTuples
        · simp only [Table.stepOp, Table.nextFreeTuple, hh, if_pos hge, if_pos hlt]
          refine ⟨Nat.zero_le _, ?_, ?_⟩
          · exact Nat.le_succ_of_le h1
          · exact hlt
        · simp only [Table.stepOp, Table.nextFreeTuple, hh, if_pos hge, if_neg hlt]
          exact ⟨Nat.zero_le _, h1, h2⟩
      · have hlt : t.usedTuples < t.allocatedTuples := Nat.not_le.mp hge
        simp only [Table.stepOp, Table.nextFreeTuple, hh, if_neg hge, if_pos hlt]
        exact ⟨Nat.zero_le _, Nat.le_succ_of_le h1, hlt⟩
  | loadOp s =>
    simp only [Table.stepOp, Table.loadTuplesFromNoHeader]
    cases hr : readInt32 s with
    | none => exact ⟨Nat.zero_le _, h1, h2⟩
    | some p =>
      obtain ⟨n, s1⟩ := p
      by_cases hbig : 2147483648 ≤ n
      · simp only [if_pos hbig]
        exact ⟨Nat.zero_le _, h1, h2⟩
      · simp only [if_neg hbig]
        by_cases hnt : t.tuplesPerBlock = 0 ∧ t.allocatedTuples < n + t.usedTuples
        · simp only [if_pos hnt]
          exact ⟨Nat.zero_le _, h1, h2⟩
        · simp only [if_neg hnt]
          obtain ⟨k, hk⟩ := growBlocks_char t (n + t.usedTuples)
          have hge : n + t.usedTuples ≤ (t.growBlocks (n + t.usedTuples)).allocatedTuples := by
            refine growBlocks_ge t _ ?_
            by_cases h0 : t.tuplesPerBlock = 0
            · right
              by_cases ha : t.allocatedTuples < n + t.usedTuples
              · exact absurd ⟨h0, ha⟩ hnt
              · omega
            · left; omega
          rcases hlr : loadRows (t.growBlocks (n + t.usedTuples)).schema
              (t.growBlocks (n + t.usedTuples)).slots
              (t.growBlocks (n + t.usedTuples)).usedTuples n s1 with ⟨slots1, orest⟩
          cases orest with
          | some rest =>
            simp only [hlr]
            refine ⟨Nat.zero_le _, ?_, ?_⟩
            · rw [hk]; simp only; omega
            · rw [hk] at hge ⊢; simp only at hge ⊢; omega
          | none =>
            simp only [hlr]
            rw [hk]
            exact ⟨Nat.zero_le _, by simp only; omega, by simp only; omega⟩

/-- Claim C2 (confirmed): starting from a freshly constructed table,
after every operation of any sequence of slot allocations
(`nextFreeTuple`), bulk loads (`loadTuplesFromNoHeader` on arbitrary
streams) and re-initializations (`initializeWithColumns`), the counters
satisfy `0 ≤ tupleCount ≤ usedTuples ≤ allocatedTuples`.  Quantifying
over all sequences covers the state after every prefix. -/
theorem counters_invariant_sequences (targetSize : Nat) (dbId : Int)
    (nm ttype idxs : List Nat) (ops : List TableOp) :
    counterInv ((Table.construct targetSize dbId nm ttype idxs).runOps ops) := by
  have hrun : ∀ (ops2 : List TableOp) (t : Table),
      counterInv t → counterInv (t.runOps ops2) := by
    intro ops2
    induction ops2 with
    | nil => exact fun t h => h
    | cons op rest ih => exact fun t h => ih _ (stepOp_preserves_counterInv t op h)
  exact hrun ops _ ⟨Nat.le_refl _, Nat.le_refl _, Nat.le_refl _⟩

/-! ## Schema-mismatch handling (claims C4 and C7) -/

/-- Claim C4 (confirmed): whenever the inbound stream's header parses and
its decoded 2-byte column count differs from the live schema's column
count, `loadTuplesFrom` fails with the structured schema-mismatch error —
carrying the expected count, the given count, the expected column types
and names and the given column types and names — and returns the table
completely unchanged (counters, free list and all stored tuples). -/
theorem loadTuplesFrom_schemaMismatch_atomic (t : Table) (s : List Nat)
    (colcount : Nat) (gtypes : List Nat) (gnames : List (List Nat)) (rest : List Nat)
    (hparse : parseLoadHeader s = .ok (colcount, gtypes, gnames, rest))
    (hcc : colcount ≠ t.schema.columnCount) :
    t.loadTuplesFrom s =
      (t, .error (.schemaMismatch t.schema.columnCount colcount
        (t.schema.colTypes.map typeCode) t.columnNames gtypes gnames)) := by
  simp only [Table.loadTuplesFrom, hparse, if_pos hcc]

/-- Witness for C4: a stream declaring two integer columns fed to the
one-column `tableA`. -/
theorem loadTuplesFrom_schemaMismatch_atomic_witness :
    parseLoadHeader mismatchStream = .ok (2, [5, 5], [[97], [98]], writeInt32 0) ∧
    (2 : Nat) ≠ tableA.schema.columnCount ∧
    tableA.loadTuplesFrom mismatchStream =
      (tableA, .error (.schemaMismatch tableA.schema.columnCount 2
        (tableA.schema.colTypes.map typeCode) tableA.columnNames [5, 5] [[97], [98]])) :=
  ⟨rfl, by decide,
    loadTuplesFrom_schemaMismatch_atomic tableA mismatchStream 2 [5, 5] [[97], [98]]
      (writeInt32 0) rfl (by decide)⟩

/-- Counterexample to claim C7 as stated: `wrongTypeStream` declares the
right column count but a VARCHAR type byte (9) for `tableA`'s INTEGER
column (type code 5), yet `loadTuplesFrom` raises no error and
materializes the row — the source only saves the type bytes for the
error message and never compares them (`// skip the column types`). -/
theorem loadTuplesFrom_ignores_types_counterexample :
    parseLoadHeader wrongTypeStream = .ok (1, [9], [[97]], writeInt32 1 ++ writeInt32 42) ∧
    [9] ≠ tableA.schema.colTypes.map typeCode ∧
    (tableA.loadTuplesFrom wrongTypeStream).2 = .ok () ∧
    (tableA.loadTuplesFrom wrongTypeStream).1.tupleCount = 1 :=
  ⟨rfl, by decide, rfl, rfl⟩

/-- Claim C7 (corrected): the bulk loader validates only the declared
column count against the live schema; when the count matches it delegates
to `loadTuplesFromNoHeader` even if the declared per-column type bytes
differ from the schema's types, materializing rows against the live
schema instead of failing. -/
theorem loadTuplesFrom_validates_only_count (t : Table) (s : List Nat)
    (colcount : Nat) (gtypes : List Nat) (gnames : List (List Nat)) (rest : List Nat)
    (hparse : parseLoadHeader s = .ok (colcount, gtypes, gnames, rest))
    (hcc : colcount = t.schema.columnCount)
    (_htypes : gtypes ≠ t.schema.colTypes.map typeCode) :
    t.loadTuplesFrom s = t.loadTuplesFromNoHeader rest := by
  simp only [Table.loadTuplesFrom, hparse, if_neg (not_not.mpr hcc)]

/-- Witness for the corrected C7 at `wrongTypeStream` and `tableA`. -/
theorem loadTuplesFrom_validates_only_count_witness :
    parseLoadHeader wrongTypeStream = .ok (1, [9], [[97]], writeInt32 1 ++ writeInt32 42) ∧
    (1 : Nat) = tableA.schema.columnCount ∧
    [9] ≠ tableA.schema.colTypes.map typeCode ∧
    tableA.loadTuplesFrom wrongTypeStream =
      tableA.loadTuplesFromNoHeader (writeInt32 1 ++ writeInt32 42) :=
  ⟨rfl, rfl, by decide,
    loadTuplesFrom_validates_only_count tableA wrongTypeStream 1 [9] [[97]]
      (writeInt32 1 ++ writeInt32 42) rfl rfl (by decide)⟩

/-! ## Serialization layout (claim C6) -/

theorem writeIntAt_splice (out B : List Nat) (x v : Nat) :
    writeIntAt out.length v (out ++ writeInt32 x ++ B) = out ++ writeInt32 v ++ B := by
  have htake : List.take out.length (out ++ writeInt32 x ++ B) = out := by
    rw [List.append_assoc]
    exact List.take_left out _
  have hdrop : List.drop (out.length + 4) (out ++ writeInt32 x ++ B) = B :=
    List.drop_left' (by simp [length_writeInt32])
  unfold writeIntAt
  rw [htake, hdrop]

theorem table_eta_cache (t : Table) :
    { t with columnHeaderData := t.columnHeaderData } = t := by
  cases t
  rfl

theorem activeTuples_set_cache (t : Table) (c : Option (List Nat)) :
    ({ t with columnHeaderData := c } : Table).activeTuples = t.activeTuples := rfl

theorem serializeColumnHeaderTo_eq (t : Table) (out : List Nat)
    (h : t.columnHeaderData = none ∨ t.columnHeaderData = some t.computedColumnHeader) :
    t.serializeColumnHeaderTo out =
      ({ t with columnHeaderData := some t.computedColumnHeader },
        out ++ t.computedColumnHeader) := by
  rcases h with h | h
  · unfold Table.serializeColumnHeaderTo
    rw [h]
    simp only
    have hbody : out ++ writeInt32 4294967295 ++ 128 :: writeInt16 t.columnCount
        ++ t.schema.colTypes.map typeCode
        ++ (t.columnNames.map (fun nm => writeInt32 nm.length ++ nm)).flatten =
        out ++ writeInt32 4294967295 ++ t.columnHeaderBody := by
      simp [Table.columnHeaderBody]
    rw [hbody]
    have hlen : (out ++ writeInt32 4294967295 ++ t.columnHeaderBody).length - out.length - 4 =
        (t.columnHeaderBody).length := by
      simp [length_writeInt32]
    rw [hlen, writeIntAt_splice out (t.columnHeaderBody) 4294967295 (t.columnHeaderBody).length]
    have hdrop : (out ++ writeInt32 (t.columnHeaderBody).length ++ t.columnHeaderBody).drop
        out.length = t.computedColumnHeader := by
      rw [List.append_assoc, List.drop_left]
      rfl
    rw [hdrop]
    have hfin : out ++ writeInt32 (t.columnHeaderBody).length ++ t.columnHeaderBody =
        out ++ t.computedColumnHeader := by
      simp [Table.computedColumnHeader, List.append_assoc]
    rw [hfin]
  · unfold Table.serializeColumnHeaderTo
    rw [h]
    have heta : ({ t with columnHeaderData := some t.computedColumnHeader } : Table) = t := by
      conv_lhs => rw [← h]
    show (t, out ++ t.computedColumnHeader) =
      ({ t with columnHeaderData := some t.computedColumnHeader }, out ++ t.computedColumnHeader)
    rw [heta]

theorem serializeTo_eq (t : Table) (out : List Nat)
    (h : t.columnHeaderData = none ∨ t.columnHeaderData = some t.computedColumnHeader) :
    t.serializeTo out =
      ({ t with columnHeaderData := some t.computedColumnHeader },
        out ++ writeInt32 ((t.computedColumnHeader).length + 4 +
            ((t.activeTuples.map (serializeTuple t.schema)).flatten).length)
          ++ (t.computedColumnHeader ++ writeInt32 t.tupleCount
            ++ (t.activeTuples.map (serializeTuple t.schema)).flatten)) := by
  unfold Table.serializeTo
  rw [serializeColumnHeaderTo_eq t (out ++ writeInt32 4294967295) h]
  simp only [activeTuples_set_cache]
  have hshape : out ++ writeInt32 4294967295 ++ t.computedColumnHeader
      ++ writeInt32 t.tupleCount
      ++ (t.activeTuples.map (serializeTuple t.schema)).flatten =
      out ++ writeInt32 4294967295 ++ (t.computedColumnHeader ++ writeInt32 t.tupleCount
        ++ (t.activeTuples.map (serializeTuple t.schema)).flatten) := by
    simp [List.append_assoc]
  rw [hshape]
  have hsz : (out ++ writeInt32 4294967295 ++ (t.computedColumnHeader
        ++ writeInt32 t.tupleCount
        ++ (t.activeTuples.map (serializeTuple t.schema)).flatten)).length
      - out.length - 4 =
      (t.computedColumnHeader).length + 4 +
        ((t.activeTuples.map (serializeTuple t.schema)).flatten).length := by
    simp [length_writeInt32]
    omega
  rw [hsz, writeIntAt_splice]

/-- Claim C6 (confirmed): on a well-formed table, `serializeTo` emits the
4-byte total size, then the column header, then a 4-byte row count equal
to `m_tupleCount`, then each active tuple in iteration order; the number
of tuples written (the length of the iterated active-tuple list) equals
`m_tupleCount` exactly, discharging the source assertion; and the
backpatched leading size field holds the number of bytes written after
it, non-inclusive of the size field itself. -/
theorem serializeTo_wire_layout (t : Table) (hwf : t.wf) :
    (t.serializeTo []).2 =
      writeInt32 ((t.computedColumnHeader).length + 4 +
          ((t.activeTuples.map (serializeTuple t.schema)).flatten).length)
        ++ (t.computedColumnHeader ++ writeInt32 t.tupleCount
          ++ (t.activeTuples.map (serializeTuple t.schema)).flatten) ∧
    t.activeTuples.length = t.tupleCount ∧
    ((t.serializeTo []).2).length =
      4 + ((t.computedColumnHeader).length + 4 +
        ((t.activeTuples.map (serializeTuple t.schema)).flatten).length) := by
  obtain ⟨hcount, -, -, -, -, -, hcache⟩ := hwf
  have heq := serializeTo_eq t [] hcache
  refine ⟨?_, hcount.symm, ?_⟩
  · rw [heq]
    rfl
  · rw [heq]
    simp [length_writeInt32]
    omega

/-- Witness for C6 at `tableC` (two active rows, one deleted slot in the
middle). -/
theorem serializeTo_wire_layout_witness :
    tableC.wf ∧
    ((tableC.serializeTo []).2 =
      writeInt32 ((tableC.computedColumnHeader).length + 4 +
          ((tableC.activeTuples.map (serializeTuple tableC.schema)).flatten).length)
        ++ (tableC.computedColumnHeader ++ writeInt32 tableC.tupleCount
          ++ (tableC.activeTuples.map (serializeTuple tableC.schema)).flatten) ∧
    tableC.activeTuples.length = tableC.tupleCount ∧
    ((tableC.serializeTo []).2).length =
      4 + ((tableC.computedColumnHeader).length + 4 +
        ((tableC.activeTuples.map (serializeTuple tableC.schema)).flatten).length)) :=
  ⟨by decide, serializeTo_wire_layout tableC (by decide)⟩

/-! ## Round trip (claim C1) -/

/-- Counterexample to claim C1 as stated: feeding the byte stream
produced by `serializeTo` — which starts with the 4-byte total-size
field — directly to `loadTuplesFrom` misparses: the loader consumes the
total size as the row-start offset and the first header-size byte as the
status byte, decodes a column count of 0 from the middle of the header
size, and throws a schema mismatch (expected 1, given 0), leaving the
target unchanged and not equal to the source. -/
theorem serializeTo_loadTuplesFrom_direct_counterexample :
    (tableB.freshTarget 1024).loadTuplesFrom ((tableB.serializeTo []).2) =
      (tableB.freshTarget 1024, .error (.schemaMismatch 1 0 [5] [[97]] [] [])) ∧
    (tableB.freshTarget 1024).equals tableB = false :=
  ⟨rfl, rfl⟩

theorem readTypeArray_round :
    ∀ (bs rest : List Nat), readTypeArray bs.length (bs ++ rest) = some (bs, rest)
  | [], _ => rfl
  | b :: bs, rest => by
      simp only [List.length_cons, List.cons_append, readTypeArray, readByte,
        readTypeArray_round bs rest]

theorem readNameArray_round :
    ∀ (names : List (List Nat)) (rest : List Nat),
      (∀ nm ∈ names, nm.length < 2147483648) →
      readNameArray names.length
          ((names.map (fun nm => writeInt32 nm.length ++ nm)).flatten ++ rest) =
        some (names, rest)
  | [], _, _ => rfl
  | nm :: names, rest, h => by
      have h1 : nm.length < 2147483648 := h nm (by simp)
      have hrec := readNameArray_round names rest (fun x hx => h x (by simp [hx]))
      simp only [List.length_cons, List.map_cons, List.flatten_cons, List.append_assoc,
        readNameArray]
      rw [readTextString_round nm _ h1]
      simp only [hrec]

theorem parseLoadHeader_computedHeader (t : Table) (rest : List Nat)
    (hnames : t.columnNames.length = t.schema.colTypes.length)
    (hcc : t.columnCount < 32768)
    (hlen : ∀ nm ∈ t.columnNames, nm.length < 2147483648) :
    parseLoadHeader (t.computedColumnHeader ++ rest) =
      .ok (t.columnCount, t.schema.colTypes.map typeCode, t.columnNames, rest) := by
  have h1 : t.computedColumnHeader ++ rest =
      writeInt32 (t.columnHeaderBody).length ++
        (128 :: (writeInt16 t.columnCount ++ (t.schema.colTypes.map typeCode ++
          ((t.columnNames.map (fun nm => writeInt32 nm.length ++ nm)).flatten ++ rest)))) := by
    simp [Table.computedColumnHeader, Table.columnHeaderBody, List.append_assoc]
  have htypes : (t.schema.colTypes.map typeCode).length = t.columnCount := by
    rw [List.length_map, ← hnames]
    rfl
  have hng : ¬ 32768 ≤ t.columnCount := Nat.not_le.mpr hcc
  unfold parseLoadHeader
  rw [h1, readInt32_writeInt32]
  simp only [readByte]
  rw [readInt16_writeInt16_of_lt t.columnCount _ (by omega)]
  simp only [if_neg hng]
  rw [← htypes, readTypeArray_round]
  simp only [htypes, Table.columnCount, readNameArray_round t.columnNames rest hlen]

theorem loadRows_round :
    ∀ (rows : List (List Value)) (schema : TupleSchema) (slots : Nat → Slot)
      (idx : Nat) (rest : List Nat),
      (∀ r ∈ rows, rowOk schema r) →
      loadRows schema slots idx rows.length
          ((rows.map (serializeTuple schema)).flatten ++ rest) =
        (writeRows slots idx rows, some rest)
  | [], _, _, _, _, _ => rfl
  | r :: rows, schema, slots, idx, rest, h => by
      have h1 : rowOk schema r := h r (by simp)
      have hrec := loadRows_round rows schema
        (updateSlot slots idx { deleted := false, dirty := false, values := r })
        (idx + 1) rest (fun x hx => h x (by simp [hx]))
      simp only [List.length_cons, List.map_cons, List.flatten_cons, List.append_assoc,
        loadRows, writeRows]
      rw [deserializeTuple_serializeTuple schema r _ h1]
      simp only [hrec]

theorem writeRows_lt :
    ∀ (rows : List (List Value)) (slots : Nat → Slot) (idx j : Nat),
      j < idx → writeRows slots idx rows j = slots j
  | [], _, _, _, _ => rfl
  | r :: rows, slots, idx, j, hj => by
      rw [writeRows, writeRows_lt rows _ (idx + 1) j (by omega)]
      simp only [updateSlot, if_neg (by omega : ¬ j = idx)]

theorem writeRows_get :
    ∀ (rows : List (List Value)) (slots : Nat → Slot) (idx k : Nat)
      (hk : k < rows.length),
      writeRows slots idx rows (idx + k) =
        { deleted := false, dirty := false, values := rows.get ⟨k, hk⟩ }
  | r :: rows, slots, idx, 0, _ => by
      rw [Nat.add_zero, writeRows, writeRows_lt rows _ (idx + 1) idx (by omega)]
      simp [updateSlot]
  | r :: rows, slots, idx, k + 1, hk => by
      rw [writeRows, show idx + (k + 1) = (idx + 1) + k by omega,
        writeRows_get rows _ (idx + 1) k (by simpa using hk)]
      rfl

theorem activeTuples_writeRows (slots : Nat → Slot) (rows : List (List Value)) :
    ((((List.range rows.length).map (writeRows slots 0 rows)).filter
        (fun sl => !sl.deleted)).map Slot.values) = rows := by
  have hmap : (List.range rows.length).map (writeRows slots 0 rows) =
      rows.map (fun r => { deleted := false, dirty := false, values := r }) := by
    apply List.ext_getElem
    · simp
    · intro i h1 h2
      simp only [List.getElem_map, List.getElem_range]
      have hw := writeRows_get rows slots 0 i (by simpa using h1)
      rw [Nat.zero_add] at hw
      rw [hw]
      simp [List.get_eq_getElem]
  rw [hmap, List.filter_map]
  have : ((fun sl => !sl.deleted) ∘ fun r =>
      ({ deleted := false, dirty := false, values := r } : Slot)) = fun _ => true := by
    funext r
    rfl
  rw [this, List.filter_true, List.map_map]
  have hid : (Slot.values ∘ fun r =>
      ({ deleted := false, dirty := false, values := r } : Slot)) = id := by
    funext r
    rfl
  rw [hid, List.map_id]

theorem tupleLoopEq_refl : ∀ (xs : List (List Value)), tupleLoopEq xs xs = true
  | [] => rfl
  | x :: xs => by simp [tupleLoopEq, tupleLoopEq_refl xs]

theorem zip_self_all (l : List Nat) : (l.zip l).all (fun p => p.1 == p.2) = true := by
  induction l with
  | nil => rfl
  | cons a l ih => simpa [List.zip_cons_cons] using ih

theorem loadTuplesFromNoHeader_round (t : Table) (rows : List (List Value))
    (hn : rows.length < 2147483648)
    (hok : ∀ r ∈ rows, rowOk t.schema r)
    (htpb : 0 < t.tuplesPerBlock) :
    t.loadTuplesFromNoHeader
        (writeInt32 rows.length ++ (rows.map (serializeTuple t.schema)).flatten) =
      ({ t.growBlocks (rows.length + t.usedTuples) with
          slots := writeRows t.slots t.usedTuples rows,
          tupleCount := t.tupleCount + rows.length,
          usedTuples := t.usedTuples + rows.length }, .ok ()) := by
  obtain ⟨k, hk⟩ := growBlocks_char t (rows.length + t.usedTuples)
  have hload := loadRows_round rows t.schema t.slots t.usedTuples [] hok
  rw [List.append_nil] at hload
  unfold Table.loadTuplesFromNoHeader
  rw [readInt32_writeInt32_of_lt _ _ (by omega)]
  simp only [if_neg (by omega : ¬ 2147483648 ≤ rows.length),
    if_neg (by omega : ¬ (t.tuplesPerBlock = 0 ∧ t.allocatedTuples < rows.length + t.usedTuples))]
  rw [hk]
  simp only [hload]

theorem activeTuples_writeRows2 (slots : Nat → Slot) (rows : List (List Value)) (n : Nat)
    (hn : n = rows.length) :
    ((((List.range n).map (writeRows slots 0 rows)).filter
        (fun sl => !sl.deleted)).map Slot.values) = rows := by
  subst hn
  exact activeTuples_writeRows slots rows

/-- Claim C1 (corrected): the round-trip law holds once the leading
4-byte total-size field of the `serializeTo` stream is skipped — for
every well-formed table (any number of active rows, schemas with or
without variable-length columns), loading the remainder of the stream
into a freshly initialized table with the same schema, column names and
identity metadata succeeds and yields a table equal to the source under
`Table::equals`, in both argument orders.  The allocation target of the
fresh table must cover one tuple stride (otherwise the source's
pre-allocation loop never terminates, claim C9). -/
theorem serializeTo_loadTuplesFrom_roundTrip (t : Table) (targetSize : Nat)
    (hwf : t.wf)
    (hstride : t.schema.tupleLength + TUPLE_HEADER_SIZE ≤ targetSize) :
    ∃ loaded : Table,
      (t.freshTarget targetSize).loadTuplesFrom ((t.serializeTo []).2.drop 4) =
        (loaded, .ok ()) ∧
      loaded.equals t = true ∧ t.equals loaded = true := by
  obtain ⟨hcount, hsmall, hnames, hcc, hnmlen, hrows, hcache⟩ := hwf
  have hstridepos : 0 < t.schema.tupleLength + TUPLE_HEADER_SIZE := by
    unfold TUPLE_HEADER_SIZE
    omega
  have hftpb : 0 < (t.freshTarget targetSize).tuplesPerBlock :=
    (Nat.one_le_div_iff hstridepos).mpr hstride
  have hbytes : (t.serializeTo []).2.drop 4 =
      t.computedColumnHeader ++ (writeInt32 t.tupleCount ++
        (t.activeTuples.map (serializeTuple t.schema)).flatten) := by
    rw [serializeTo_eq t [] hcache]
    simp only [List.nil_append]
    rw [List.drop_left' (by simp [length_writeInt32])]
    simp [List.append_assoc]
  have hparse := parseLoadHeader_computedHeader t
    (writeInt32 t.tupleCount ++ (t.activeTuples.map (serializeTuple t.schema)).flatten)
    hnames hcc hnmlen
  have hccne : ¬ t.columnCount ≠ (t.freshTarget targetSize).schema.columnCount := by
    apply not_not.mpr
    show t.columnNames.length = t.schema.colTypes.length
    exact hnames
  have hok2 : ∀ r ∈ t.activeTuples, rowOk (t.freshTarget targetSize).schema r :=
    fun r hr => hrows r hr
  have hn2 : t.activeTuples.length < 2147483648 := by omega
  have hload := loadTuplesFromNoHeader_round (t.freshTarget targetSize)
    t.activeTuples hn2 hok2 hftpb
  have hmain : (t.freshTarget targetSize).loadTuplesFrom ((t.serializeTo []).2.drop 4) =
      ({ (t.freshTarget targetSize).growBlocks
            (t.activeTuples.length + (t.freshTarget targetSize).usedTuples) with
          slots := writeRows (t.freshTarget targetSize).slots
            (t.freshTarget targetSize).usedTuples t.activeTuples,
          tupleCount := (t.freshTarget targetSize).tupleCount + t.activeTuples.length,
          usedTuples := (t.freshTarget targetSize).usedTuples + t.activeTuples.length },
        .ok ()) := by
    rw [hbytes]
    unfold Table.loadTuplesFrom
    simp only [hparse, if_neg hccne]
    rw [hcount]
    exact hload
  refine ⟨_, hmain, ?_, ?_⟩
  · obtain ⟨k, hk⟩ := growBlocks_char (t.freshTarget targetSize)
      (t.activeTuples.length + (t.freshTarget targetSize).usedTuples)
    rw [hk]
    simp [Table.equals, Table.columnCount, Table.activeTuples, Table.freshTarget,
      Table.initializeWithColumns, Table.construct, zip_self_all, hcount]
    rw [activeTuples_writeRows2 (fun _ => Slot.uninit) _ _ (by simp), tupleLoopEq_refl]
  · obtain ⟨k, hk⟩ := growBlocks_char (t.freshTarget targetSize)
      (t.activeTuples.length + (t.freshTarget targetSize).usedTuples)
    rw [hk]
    simp [Table.equals, Table.columnCount, Table.activeTuples, Table.freshTarget,
      Table.initializeWithColumns, Table.construct, zip_self_all, hcount]
    rw [activeTuples_writeRows2 (fun _ => Slot.uninit) _ _ (by simp), tupleLoopEq_refl]

/-- Witness for the corrected C1 at `tableM` (two active rows, a schema
with one fixed-length and one variable-length column). -/
theorem serializeTo_loadTuplesFrom_roundTrip_witness :
    tableM.wf ∧
    tableM.schema.tupleLength + TUPLE_HEADER_SIZE ≤ 1024 ∧
    (∃ loaded : Table,
      (tableM.freshTarget 1024).loadTuplesFrom ((tableM.serializeTo []).2.drop 4) =
        (loaded, .ok ()) ∧
      loaded.equals tableM = true ∧ tableM.equals loaded = true) :=
  ⟨by decide, by decide,
    serializeTo_loadTuplesFrom_roundTrip tableM 1024 (by decide) (by decide)⟩
